import Mathlib

/-!
Verification of the streaming text-generation client of the text_to_speech
frontend (src/frontend/src/services/api.js and src/frontend/src/hooks/useApi.js).

The embedding models:
* JSON values and a recursive-descent model of JSON.parse (ECMA-404 grammar);
* the WHATWG UTF-8 decoder in flush mode, as invoked by
  TextDecoder.decode(value) without a stream option (api.js line 137);
* the SSE-like line scanner of generateTextStream (api.js lines 131-153);
* the event reducer of useStreamingTextGeneration (useApi.js lines 141-196);
* the request helper error paths (api.js lines 12-58);
* the textToSpeech request-body builder (api.js lines 157-199);
* the generateNotebookLMAudio precondition (api.js lines 208-221).
-/

/-- JSON values as produced by JSON.parse.  Numbers keep their source lexeme;
none of the verified claims interprets a numeric value beyond identity and
JavaScript truthiness, which is decidable on the lexeme. -/
inductive Json where
  | null : Json
  | bool (b : Bool) : Json
  | num (lexeme : String) : Json
  | str (s : String) : Json
  | arr (elems : List Json) : Json
  | obj (fields : List (String × Json)) : Json

/-- Last-wins lookup among object fields: JSON.parse keeps the last duplicate key. -/
def lookupLast (k : String) : List (String × Json) → Option Json
  | [] => none
  | (k2, v) :: rest =>
    match lookupLast k rest with
    | some r => some r
    | none => if k2 = k then some v else none

/-- Property read e[k] on a parsed JSON value: undefined (none) off objects. -/
def jsonGet (k : String) : Json → Option Json
  | Json.obj fields => lookupLast k fields
  | _ => none

/-- The numeric value of a JSON number lexeme is zero iff every mantissa digit
(before any exponent marker) is 0. -/
def numLexIsZero (lexeme : String) : Bool :=
  ((lexeme.data.takeWhile (fun c => c ≠ 'e' ∧ c ≠ 'E')).filter Char.isDigit).all (· = '0')

/-- JavaScript truthiness of a JSON value (null, false, 0 and "" are falsy;
arrays and objects are always truthy). -/
def jsTruthy : Json → Bool
  | Json.null => false
  | Json.bool b => b
  | Json.num lexeme => !(numLexIsZero lexeme)
  | Json.str s => s ≠ ""
  | Json.arr _ => true
  | Json.obj _ => true

/-- JavaScript ToString coercion on a JSON value (numbers are shown by their
source lexeme; no claim coerces a number to a string). -/
def jsToStr : Json → String
  | Json.null => "null"
  | Json.bool b => if b then "true" else "false"
  | Json.num lexeme => lexeme
  | Json.str s => s
  | Json.arr _ => ""
  | Json.obj _ => "[object Object]"

/-- ToString of a possibly-undefined value, as in the implicit coercion of
prev + event.content. -/
def jsToStrOpt : Option Json → String
  | none => "undefined"
  | some v => jsToStr v

/-- Strict equality of a JSON value with a string literal (the only strict
comparisons the code performs on dynamic values). -/
def jsonIsStr (v : Json) (s : String) : Bool :=
  match v with
  | Json.str t => t == s
  | _ => false

def jsonIsArr : Json → Bool
  | Json.arr _ => true
  | _ => false

/-! ### JSON.parse model -/

/-- JSON insignificant whitespace. -/
def jsonWsB (c : Char) : Bool := c = ' ' || c = '\t' || c = '\n' || c = '\r'

def skipWs (l : List Char) : List Char := l.dropWhile jsonWsB

def hexVal (c : Char) : Option Nat :=
  if '0' ≤ c ∧ c ≤ '9' then some (c.toNat - '0'.toNat)
  else if 'a' ≤ c ∧ c ≤ 'f' then some (c.toNat - 'a'.toNat + 10)
  else if 'A' ≤ c ∧ c ≤ 'F' then some (c.toNat - 'A'.toNat + 10)
  else none

def hex4 : List Char → Option (Nat × List Char)
  | a :: b :: c :: d :: rest =>
    match hexVal a, hexVal b, hexVal c, hexVal d with
    | some x, some y, some z, some w => some (((x * 16 + y) * 16 + z) * 16 + w, rest)
    | _, _, _, _ => none
  | _ => none

/-- Body of a JSON string literal, after the opening quote.  Returns the decoded
characters and the remaining input.  A lone UTF-16 surrogate from an escape is
replaced by U+FFFD (the sole divergence from JavaScript strings, which can hold
lone surrogates; validity of the literal is unaffected). -/
def parseStringBody : Nat → List Char → Option (List Char × List Char)
  | 0, _ => none
  | _ + 1, [] => none
  | fuel + 1, c :: rest =>
    if c = '"' then some ([], rest)
    else if c = '\\' then
      match rest with
      | [] => none
      | e :: rest2 =>
        if e = '"' ∨ e = '\\' ∨ e = '/' then
          match parseStringBody fuel rest2 with
          | some (cs, r) => some (e :: cs, r)
          | none => none
        else if e = 'b' ∨ e = 'f' ∨ e = 'n' ∨ e = 'r' ∨ e = 't' then
          let decoded : Char :=
            if e = 'b' then Char.ofNat 8
            else if e = 'f' then Char.ofNat 12
            else if e = 'n' then '\n'
            else if e = 'r' then '\r'
            else '\t'
          match parseStringBody fuel rest2 with
          | some (cs, r) => some (decoded :: cs, r)
          | none => none
        else if e = 'u' then
          match hex4 rest2 with
          | none => none
          | some (n, rest3) =>
            if 0xD800 ≤ n ∧ n ≤ 0xDBFF then
              match rest3 with
              | '\\' :: 'u' :: rest4 =>
                match hex4 rest4 with
                | some (m, rest5) =>
                  if 0xDC00 ≤ m ∧ m ≤ 0xDFFF then
                    let cp := 0x10000 + (n - 0xD800) * 0x400 + (m - 0xDC00)
                    match parseStringBody fuel rest5 with
                    | some (cs, r) => some (Char.ofNat cp :: cs, r)
                    | none => none
                  else
                    match parseStringBody fuel rest3 with
                    | some (cs, r) => some (Char.ofNat 0xFFFD :: cs, r)
                    | none => none
                | none =>
                  match parseStringBody fuel rest3 with
                  | some (cs, r) => some (Char.ofNat 0xFFFD :: cs, r)
                  | none => none
              | _ =>
                match parseStringBody fuel rest3 with
                | some (cs, r) => some (Char.ofNat 0xFFFD :: cs, r)
                | none => none
            else if 0xDC00 ≤ n ∧ n ≤ 0xDFFF then
              match parseStringBody fuel rest3 with
              | some (cs, r) => some (Char.ofNat 0xFFFD :: cs, r)
              | none => none
            else
              match parseStringBody fuel rest3 with
              | some (cs, r) => some (Char.ofNat n :: cs, r)
              | none => none
        else none
    else if c.toNat < 0x20 then none
    else
      match parseStringBody fuel rest with
      | some (cs, r) => some (c :: cs, r)
      | none => none

/-- One or more decimal digits. -/
def parseDigits1 (l : List Char) : Option (List Char × List Char) :=
  let ds := l.takeWhile Char.isDigit
  if ds = [] then none else some (ds, l.dropWhile Char.isDigit)

/-- A JSON number literal, returned as its lexeme (ECMA-404: no leading +,
no leading zeros, fraction and exponent need at least one digit). -/
def parseNumber (l : List Char) : Option (String × List Char) :=
  let (negPart, l1) :=
    match l with
    | '-' :: r => (['-'], r)
    | _ => (([] : List Char), l)
  let intRes : Option (List Char × List Char) :=
    match l1 with
    | '0' :: r => some (['0'], r)
    | c :: _ => if c.isDigit ∧ c ≠ '0' then parseDigits1 l1 else none
    | [] => none
  match intRes with
  | none => none
  | some (intPart, l2) =>
    let fracRes : Option (List Char × List Char) :=
      match l2 with
      | '.' :: r =>
        match parseDigits1 r with
        | some (ds, r2) => some ('.' :: ds, r2)
        | none => none
      | _ => some ([], l2)
    match fracRes with
    | none => none
    | some (fracPart, l3) =>
      let expRes : Option (List Char × List Char) :=
        match l3 with
        | e :: r =>
          if e = 'e' ∨ e = 'E' then
            let (signPart, r2) :=
              match r with
              | s :: r3 => if s = '+' ∨ s = '-' then ([s], r3) else (([] : List Char), r)
              | [] => (([] : List Char), r)
            match parseDigits1 r2 with
            | some (ds, r4) => some (e :: (signPart ++ ds), r4)
            | none => none
          else some ([], l3)
        | [] => some ([], l3)
      match expRes with
      | none => none
      | some (expPart, l4) =>
        some (String.mk (negPart ++ intPart ++ fracPart ++ expPart), l4)

/-- Match an expected literal tail (for true / false / null). -/
def stripChars : List Char → List Char → Option (List Char)
  | [], l => some l
  | p :: ps, c :: l => if c = p then stripChars ps l else none
  | _ :: _, [] => none

mutual

/-- A JSON value, with leading whitespace allowed. -/
def parseValue : Nat → List Char → Option (Json × List Char)
  | 0, _ => none
  | fuel + 1, l =>
    match skipWs l with
    | [] => none
    | c :: rest =>
      if c = '{' then
        match skipWs rest with
        | '}' :: r => some (Json.obj [], r)
        | l2 => match parseMembers fuel l2 with
                | some (fs, r) => some (Json.obj fs, r)
                | none => none
      else if c = '[' then
        match skipWs rest with
        | ']' :: r => some (Json.arr [], r)
        | l2 => match parseElements fuel l2 with
                | some (vs, r) => some (Json.arr vs, r)
                | none => none
      else if c = '"' then
        match parseStringBody (fuel + 1) rest with
        | some (cs, r) => some (Json.str (String.mk cs), r)
        | none => none
      else if c = 't' then
        match stripChars ['r', 'u', 'e'] rest with
        | some r => some (Json.bool true, r)
        | none => none
      else if c = 'f' then
        match stripChars ['a', 'l', 's', 'e'] rest with
        | some r => some (Json.bool false, r)
        | none => none
      else if c = 'n' then
        match stripChars ['u', 'l', 'l'] rest with
        | some r => some (Json.null, r)
        | none => none
      else if c = '-' ∨ c.isDigit then
        match parseNumber (c :: rest) with
        | some (lexeme, r) => some (Json.num lexeme, r)
        | none => none
      else none

/-- Object members from the first key onward, consuming the closing brace. -/
def parseMembers : Nat → List Char → Option (List (String × Json) × List Char)
  | 0, _ => none
  | fuel + 1, l =>
    match skipWs l with
    | '"' :: rest =>
      match parseStringBody (fuel + 1) rest with
      | some (key, rest2) =>
        match skipWs rest2 with
        | ':' :: rest3 =>
          match parseValue fuel rest3 with
          | some (v, rest4) =>
            match skipWs rest4 with
            | ',' :: rest5 =>
              match parseMembers fuel rest5 with
              | some (fs, rest6) => some ((String.mk key, v) :: fs, rest6)
              | none => none
            | '}' :: rest5 => some ([(String.mk key, v)], rest5)
            | _ => none
          | none => none
        | _ => none
      | none => none
    | _ => none

/-- Array elements from the first element onward, consuming the closing bracket. -/
def parseElements : Nat → List Char → Option (List Json × List Char)
  | 0, _ => none
  | fuel + 1, l =>
    match parseValue fuel l with
    | some (v, rest) =>
      match skipWs rest with
      | ',' :: rest2 =>
        match parseElements fuel rest2 with
        | some (vs, rest3) => some (v :: vs, rest3)
        | none => none
      | ']' :: rest2 => some ([v], rest2)
      | _ => none
    | none => none

end

/-- Model of JSON.parse(s): one JSON value, surrounded only by whitespace. -/
def jsonParse (s : String) : Option Json :=
  match parseValue (2 * s.data.length + 8) s.data with
  | some (v, rest) => if skipWs rest = [] then some v else none
  | none => none

/-! ### WHATWG UTF-8 decode, flush mode

The stream loop creates one TextDecoder but calls decoder.decode(value) without
a stream option (api.js line 137), so every call runs the WHATWG UTF-8 decoder
from a fresh state and flushes at end of input: a trailing incomplete sequence
becomes U+FFFD and no decoder state survives to the next chunk. -/

structure Utf8State where
  codePoint : Nat
  needed : Nat
  lower : Nat
  upper : Nat

def utf8InitState : Utf8State := ⟨0, 0, 0x80, 0xBF⟩

def replacementChar : Char := Char.ofNat 0xFFFD

/-- Process one byte from the start state (no pending sequence). -/
def utf8StartByte (b : Nat) : Option Char × Utf8State :=
  if b ≤ 0x7F then (some (Char.ofNat b), utf8InitState)
  else if 0xC2 ≤ b ∧ b ≤ 0xDF then (none, ⟨b % 0x20, 1, 0x80, 0xBF⟩)
  else if 0xE0 ≤ b ∧ b ≤ 0xEF then
    (none, ⟨b % 0x10, 2, if b = 0xE0 then 0xA0 else 0x80, if b = 0xED then 0x9F else 0xBF⟩)
  else if 0xF0 ≤ b ∧ b ≤ 0xF4 then
    (none, ⟨b % 0x8, 3, if b = 0xF0 then 0x90 else 0x80, if b = 0xF4 then 0x8F else 0xBF⟩)
  else (some replacementChar, utf8InitState)

/-- The WHATWG UTF-8 decoder loop; at end of input a pending sequence is
flushed to U+FFFD (decode with stream false). -/
def utf8Run : Utf8State → List Nat → List Char
  | st, [] => if st.needed = 0 then [] else [replacementChar]
  | st, b :: rest =>
    if st.needed = 0 then
      match utf8StartByte b with
      | (some c, st2) => c :: utf8Run st2 rest
      | (none, st2) => utf8Run st2 rest
    else if st.lower ≤ b ∧ b ≤ st.upper then
      let cp := st.codePoint * 64 + b % 64
      if st.needed = 1 then Char.ofNat cp :: utf8Run utf8InitState rest
      else utf8Run ⟨cp, st.needed - 1, 0x80, 0xBF⟩ rest
    else
      match utf8StartByte b with
      | (some c, st2) => replacementChar :: c :: utf8Run st2 rest
      | (none, st2) => replacementChar :: utf8Run st2 rest

/-- decoder.decode(value): full decode of one chunk with flush. -/
def utf8DecodeFlush (bytes : List Nat) : String :=
  String.mk (utf8Run utf8InitState bytes)

/-! ### generateTextStream line scanning (api.js lines 131-153) -/

/-- One candidate line: lines starting with the marker "data: " have the
marker stripped and the remainder handed to JSON.parse; a parse failure is
silently dropped, and other lines produce nothing. -/
def parseSSELine (line : String) : Option Json :=
  match "data: ".data.isPrefixOf line.data with
  | true => jsonParse (String.mk (line.data.drop 6))
  | false => none

/-- Events produced from a list of candidate lines, in order. -/
def sseLineEvents (lines : List String) : List Json :=
  lines.filterMap parseSSELine

/-- Split on the newline character, as String.prototype.split: a trailing
newline yields a final empty piece, and the empty string yields one piece. -/
def splitLinesAux (acc : List Char) : List Char → List (List Char)
  | [] => [acc.reverse]
  | c :: rest =>
    if c = '\n' then acc.reverse :: splitLinesAux [] rest
    else splitLinesAux (c :: acc) rest

def splitLines (s : String) : List String :=
  (splitLinesAux [] s.data).map String.mk

/-- Events produced from one received chunk: decode with flush, split on
the newline character, scan each line. -/
def decodeChunkEvents (bytes : List Nat) : List Json :=
  sseLineEvents (splitLines (utf8DecodeFlush bytes))

/-- Events yielded by generateTextStream over a whole sequence of chunks.
Each chunk is processed independently: no decoder state and no partial line
survives a chunk boundary. -/
def generateTextStreamEvents (chunks : List (List Nat)) : List Json :=
  (chunks.map decodeChunkEvents).flatten

/-! ### useStreamingTextGeneration reducer (useApi.js lines 133-208) -/

structure StreamState where
  content : String
  fileInfo : Json
  usage : Option Json
  loading : Bool
  errorMessage : Option Json
  isComplete : Bool

/-- State after the reset block at the start of generateStream
(useApi.js lines 142-147): loading true, everything else cleared. -/
def streamStartState : StreamState :=
  ⟨"", Json.arr [], none, true, none, false⟩

/-- The Idle defaults (initial useState values, useApi.js lines 134-139). -/
def idleState : StreamState :=
  ⟨"", Json.arr [], none, false, none, false⟩

/-- The reset callback (useApi.js lines 189-196): every field is set back to
its default. -/
def resetConsumer (s : StreamState) : StreamState :=
  { s with content := "", fileInfo := Json.arr [], usage := none,
           errorMessage := none, loading := false, isComplete := false }

/-- The switch discriminee event.type, matched against string cases: only a
string type can equal a case label. -/
def eventTag (e : Json) : Option String :=
  match jsonGet "type" e with
  | some (Json.str t) => some t
  | _ => none

/-- One iteration of the for-await loop body (useApi.js lines 161-182):
the switch on event.type. -/
def streamStep (s : StreamState) (e : Json) : StreamState :=
  if eventTag e = some "file_info" then
    { s with fileInfo :=
        match jsonGet "files" e with
        | some v => if jsTruthy v then v else Json.arr []
        | none => Json.arr [] }
  else if eventTag e = some "content" then
    { s with content := s.content ++ jsToStrOpt (jsonGet "content" e) }
  else if eventTag e = some "done" then
    { s with usage := jsonGet "usage" e, isComplete := true, loading := false }
  else if eventTag e = some "error" then
    { s with errorMessage := jsonGet "error" e, loading := false }
  else s

/-- Folding a full event sequence from the freshly-reset streaming state. -/
def runStream (events : List Json) : StreamState :=
  events.foldl streamStep streamStartState

/-! ### request helper error paths (api.js lines 12-58) -/

/-- Outcome of the fetch racing the abort timer: the timer fired first
(AbortError), the transport failed with some other error, or a response
arrived with a status, a status text, and an optional parsed JSON body
(none when response.json() rejects). -/
inductive FetchOutcome where
  | aborted : FetchOutcome
  | netFailure (msg : String) : FetchOutcome
  | httpResponse (status : Nat) (statusText : String) (body : Option Json) : FetchOutcome

structure ApiError where
  message : String
  code : Option String
  status : Option Nat
  data : Option Json

/-- response.ok: status in the inclusive range 200-299. -/
def respOk (status : Nat) : Bool := 200 ≤ status && status ≤ 299

def httpDefaultErrMsg (status : Nat) (statusText : String) : String :=
  "HTTP " ++ toString status ++ ": " ++ statusText

/-- errorData.detail || HTTP status: statusText. -/
def errMsgFrom (errorData : Json) (status : Nat) (statusText : String) : String :=
  match jsonGet "detail" errorData with
  | some d => if jsTruthy d then jsToStr d else httpDefaultErrMsg status statusText
  | none => httpDefaultErrMsg status statusText

/-- The request helper: AbortError becomes the TIMEOUT error with the
configured timeout in the message; a non-ok response becomes an error
carrying the status and the parsed error body (or an empty object when the
body is not JSON); other failures are rethrown unchanged. -/
def requestModel (timeoutMs : Nat) :
    FetchOutcome → Except ApiError (Nat × String × Option Json)
  | FetchOutcome.aborted =>
    Except.error ⟨"Request timeout after " ++ toString timeoutMs ++ "ms",
                  some "TIMEOUT", none, none⟩
  | FetchOutcome.netFailure m => Except.error ⟨m, none, none, none⟩
  | FetchOutcome.httpResponse st stx body =>
    if respOk st then Except.ok (st, stx, body)
    else
      Except.error ⟨errMsgFrom (body.getD (Json.obj [])) st stx, none,
                    some st, some (body.getD (Json.obj []))⟩

/-! ### textToSpeech request body (api.js lines 157-199) -/

/-- Arguments of textToSpeech as JavaScript values; promptPrefix models the
source field named prompt underscore prefix. -/
structure TtsArgs where
  text : Json
  voice : Json
  speed : Json
  provider : Json
  model : Json
  system_prompt : Json
  instructions : Json
  response_format : Json
  promptPrefix : Json
  voice_config : Json
  language_code : Json

/-- The defaulted argument record of a bare textToSpeech call: every optional
argument at its declared default. -/
def ttsDefaultedArgs (text : Json) : TtsArgs :=
  ⟨text, Json.str "alloy", Json.num "1.0", Json.str "openai", Json.null,
   Json.str "", Json.str "", Json.str "mp3", Json.str "", Json.null,
   Json.str "en-US"⟩

/-- The JSON request body assembled by textToSpeech, as the ordered key-value
list JSON.stringify serializes: the four mandatory fields, then each optional
field under its condition from the source. -/
def mkTtsBody (a : TtsArgs) : List (String × Json) :=
  [("text", a.text), ("voice", a.voice), ("speed", a.speed), ("provider", a.provider)]
  ++ (if jsTruthy a.model then [("model", a.model)] else [])
  ++ (if jsTruthy a.system_prompt then [("system_prompt", a.system_prompt)] else [])
  ++ (if jsTruthy a.instructions then [("instructions", a.instructions)] else [])
  ++ (if jsTruthy a.response_format && !(jsonIsStr a.response_format "mp3") then
        [("response_format", a.response_format)] else [])
  ++ (if jsTruthy a.promptPrefix then [("prompt_prefix", a.promptPrefix)] else [])
  ++ (if jsTruthy a.voice_config then [("voice_config", a.voice_config)] else [])
  ++ (if jsTruthy a.language_code && !(jsonIsStr a.language_code "en-US") then
        [("language_code", a.language_code)] else [])

/-- First-match key read on an assembled body (all keys are distinct). -/
def bodyGet (k : String) : List (String × Json) → Option Json
  | [] => none
  | (k2, v) :: rest => if k2 = k then some v else bodyGet k rest

/-! ### generateNotebookLMAudio (api.js lines 208-221) -/

/-- The ECMAScript trim character set: WhiteSpace and LineTerminator. -/
def jsWhitespaceB (c : Char) : Bool :=
  c = '\t' || c.toNat = 0xB || c.toNat = 0xC || c = '\n' || c = '\r' || c = ' '
  || c.toNat = 0xA0 || c.toNat = 0x1680
  || (0x2000 ≤ c.toNat && c.toNat ≤ 0x200A)
  || c.toNat = 0x2028 || c.toNat = 0x2029
  || c.toNat = 0x202F || c.toNat = 0x205F || c.toNat = 0x3000
  || c.toNat = 0xFEFF

/-- String.prototype.trim: strip the character set above from both ends. -/
def jsTrim (s : String) : String :=
  String.mk (((s.data.dropWhile jsWhitespaceB).reverse.dropWhile jsWhitespaceB).reverse)

/-- generateNotebookLMAudio: throws before any request when custom text is
missing (undefined), empty, or trims to empty; otherwise the request body
carries the trimmed text. -/
def generateNotebookLMAudio (custom_text : Option String) :
    Except String (List (String × Json)) :=
  match custom_text with
  | none => Except.error "Custom text is required"
  | some s =>
    if s = "" || jsTrim s = "" then Except.error "Custom text is required"
    else Except.ok [("custom_text", Json.str (jsTrim s))]

/-! ### Concrete inputs used by the evaluation theorems -/

/-- UTF-8 bytes of an ASCII string. -/
def asciiBytes (s : String) : List Nat := s.data.map Char.toNat

/-- A single valid content event line carrying the two-byte character é,
cut into two chunks between the bytes 0xC3 and 0xA9 of é. -/
def c1Chunk1 : List Nat :=
  asciiBytes "data: \x7b\"type\":\"content\",\"content\":\"" ++ [0xC3]

def c1Chunk2 : List Nat := [0xA9] ++ asciiBytes "\"\x7d" ++ [10]

/-- The three event lines of the reducer scenario. -/
def scenarioLines : List String :=
  ["data: \x7b\"type\":\"content\",\"content\":\"Hel\"\x7d",
   "data: \x7b\"type\":\"content\",\"content\":\"lo\"\x7d",
   "data: \x7b\"type\":\"done\",\"usage\":\x7b\"tokens\":5\x7d\x7d"]

def doneEvent5 : Json :=
  Json.obj [("type", Json.str "done"), ("usage", Json.obj [("tokens", Json.num "5")])]

def errorEventBoom : Json :=
  Json.obj [("type", Json.str "error"), ("error", Json.str "boom")]

def contentEventHel : Json :=
  Json.obj [("type", Json.str "content"), ("content", Json.str "Hel")]

def fileInfoEventOne : Json :=
  Json.obj [("type", Json.str "file_info"),
            ("files", Json.arr [Json.obj [("filename", Json.str "a.pdf")]])]

/-- The string a content-type event appends to the accumulated content. -/
def contentTextOf (e : Json) : String := jsToStrOpt (jsonGet "content" e)

/-- Concatenation of the fragments contributed by the content events of a
sequence, in order. -/
def contentConcat : List Json → String
  | [] => ""
  | e :: rest =>
    (if eventTag e = some "content" then contentTextOf e else "") ++ contentConcat rest

/-! ### Reducer lemmas -/

theorem streamStep_content_eq (s : StreamState) (e : Json) :
    (streamStep s e).content =
      s.content ++ (if eventTag e = some "content" then contentTextOf e else "") := by
  unfold streamStep
  split_ifs <;> simp_all [contentTextOf]

theorem foldl_content_eq (es : List Json) (s : StreamState) :
    (es.foldl streamStep s).content = s.content ++ contentConcat es := by
  induction es generalizing s with
  | nil => simp [contentConcat]
  | cons e rest ih =>
    simp only [List.foldl_cons, contentConcat]
    rw [ih, streamStep_content_eq, String.append_assoc]

theorem streamStep_error_eq (s : StreamState) (e : Json)
    (h : eventTag e = some "error") :
    streamStep s e = { s with errorMessage := jsonGet "error" e, loading := false } := by
  unfold streamStep
  split_ifs <;> simp_all

/-! ### Trim lemmas -/

theorem dropWhile_forall_iff (p : Char → Bool) (l : List Char) :
    (∀ a ∈ l.dropWhile p, p a = true) ↔ ∀ a ∈ l, p a = true := by
  constructor
  · intro h a ha
    have hsplit : l.takeWhile p ++ l.dropWhile p = l := List.takeWhile_append_dropWhile p l
    rw [← hsplit] at ha
    rcases List.mem_append.1 ha with hta | hda
    · exact List.mem_takeWhile_imp hta
    · exact h a hda
  · intro h a ha
    exact h a ((List.dropWhile_sublist p).mem ha)

theorem jsTrim_eq_empty_iff (s : String) :
    jsTrim s = "" ↔ ∀ c ∈ s.data, jsWhitespaceB c = true := by
  unfold jsTrim
  rw [show ("" : String) = String.mk [] from rfl]
  constructor
  · intro h
    have h1 : ((s.data.dropWhile jsWhitespaceB).reverse.dropWhile jsWhitespaceB).reverse = [] := by
      have := congrArg String.data h
      simpa using this
    rw [List.reverse_eq_nil_iff, List.dropWhile_eq_nil_iff] at h1
    have h2 : ∀ a ∈ s.data.dropWhile jsWhitespaceB, jsWhitespaceB a = true := by
      intro a ha
      exact h1 a (List.mem_reverse.2 ha)
    exact (dropWhile_forall_iff jsWhitespaceB s.data).1 h2
  · intro h
    have h1 : s.data.dropWhile jsWhitespaceB = [] :=
      List.dropWhile_eq_nil_iff.2 h
    rw [h1]
    rfl

/-! ### Body lookup lemmas -/

theorem bodyGet_append_of_none (k : String) (l1 l2 : List (String × Json))
    (h : bodyGet k l1 = none) : bodyGet k (l1 ++ l2) = bodyGet k l2 := by
  induction l1 with
  | nil => rfl
  | cons p rest ih =>
    rw [List.cons_append]
    cases p with
    | mk k2 v =>
      by_cases hk : k2 = k
      · rw [bodyGet, if_pos hk] at h
        exact absurd h (by simp)
      · rw [bodyGet, if_neg hk] at h ⊢
        exact ih h

theorem bodyGet_ite_ne (k key : String) (v : Json) (c : Prop) [Decidable c]
    (h : ¬ key = k) : bodyGet k (if c then [(key, v)] else []) = none := by
  split
  · rw [bodyGet, if_neg h]
    rfl
  · rfl

/-! ### Claim theorems -/

/-- C1: the claim demands that every byte-chunk split of a valid content event
line yields exactly one Content event.  Evaluating the embedded stream loop:
the unsplit line yields the one expected event, but splitting the same bytes
inside the two-byte character é yields no event at all, because each chunk is
decoded with a flushing decoder and line-scanned independently. -/
theorem chunk_split_drops_content_event :
    generateTextStreamEvents [c1Chunk1 ++ c1Chunk2]
      = [Json.obj [("type", Json.str "content"), ("content", Json.str "é")]]
    ∧ generateTextStreamEvents [c1Chunk1, c1Chunk2] = [] :=
  ⟨rfl, rfl⟩

/-- C2: the claim demands that events after a Done or Error event are ignored.
Evaluating the embedded reducer on a Done event followed by an Error event:
the post-terminal Error event is folded, leaving isComplete = true and
errorMessage set in the same run. -/
theorem reducer_folds_events_after_done :
    (runStream [doneEvent5, errorEventBoom]).isComplete = true
    ∧ (runStream [doneEvent5, errorEventBoom]).errorMessage = some (Json.str "boom") :=
  ⟨rfl, rfl⟩

/-- C3: feeding the reducer the three events parsed from the two content lines
and the done line produces accumulated content "Hello", the usage object with
tokens 5, and isComplete = true. -/
theorem scenario_lines_reduce_to_hello_done :
    (runStream (sseLineEvents scenarioLines)).content = "Hello"
    ∧ (runStream (sseLineEvents scenarioLines)).usage
        = some (Json.obj [("tokens", Json.num "5")])
    ∧ (runStream (sseLineEvents scenarioLines)).isComplete = true :=
  ⟨rfl, rfl, rfl⟩

/-- C4: when an Error event arrives after any events including at least one
Content event, the run sets errorMessage to the Error event's error string and
leaves the accumulated content exactly the concatenation of the Content
fragments received before the error. -/
theorem error_preserves_partial_content
    (es : List Json) (errEv : Json) (msg : String)
    (_hc : ∃ e ∈ es, eventTag e = some "content")
    (hty : eventTag errEv = some "error")
    (herr : jsonGet "error" errEv = some (Json.str msg)) :
    ((es ++ [errEv]).foldl streamStep streamStartState).errorMessage = some (Json.str msg)
    ∧ ((es ++ [errEv]).foldl streamStep streamStartState).content = contentConcat es := by
  have hsplit : (es ++ [errEv]).foldl streamStep streamStartState
      = streamStep (es.foldl streamStep streamStartState) errEv := by
    rw [List.foldl_append]
    rfl
  rw [hsplit, streamStep_error_eq _ _ hty]
  constructor
  · exact herr
  · show (es.foldl streamStep streamStartState).content = contentConcat es
    rw [foldl_content_eq]
    exact String.empty_append _

theorem error_preserves_partial_content_witness :
    (([contentEventHel] ++ [errorEventBoom]).foldl streamStep streamStartState).errorMessage
      = some (Json.str "boom")
    ∧ (([contentEventHel] ++ [errorEventBoom]).foldl streamStep streamStartState).content
      = contentConcat [contentEventHel] :=
  error_preserves_partial_content [contentEventHel] errorEventBoom "boom"
    ⟨contentEventHel, List.mem_singleton.2 rfl, rfl⟩ rfl rfl

/-- C5: a line that carries the marker but whose remainder JSON.parse rejects
yields no event and leaves the events of the other lines unchanged, and a line
without the marker yields no event. -/
theorem malformed_or_unmarked_line_no_event
    (pre post : List String) (bad : String)
    (h : ("data: ".data.isPrefixOf bad.data = true
            ∧ jsonParse (String.mk (bad.data.drop 6)) = none)
         ∨ "data: ".data.isPrefixOf bad.data = false) :
    parseSSELine bad = none
    ∧ sseLineEvents (pre ++ bad :: post) = sseLineEvents (pre ++ post) := by
  have hb : parseSSELine bad = none := by
    unfold parseSSELine
    rcases h with ⟨h1, h2⟩ | h1
    · rw [h1]
      exact h2
    · rw [h1]
  refine ⟨hb, ?_⟩
  simp [sseLineEvents, List.filterMap_append, List.filterMap_cons, hb]

theorem malformed_or_unmarked_line_no_event_witness :
    parseSSELine "data: \x7boops" = none
    ∧ sseLineEvents (["data: \x7b\"type\":\"content\",\"content\":\"A\"\x7d"]
        ++ "data: \x7boops" :: ["nodata"])
      = sseLineEvents (["data: \x7b\"type\":\"content\",\"content\":\"A\"\x7d"]
        ++ ["nodata"]) :=
  malformed_or_unmarked_line_no_event
    ["data: \x7b\"type\":\"content\",\"content\":\"A\"\x7d"] ["nodata"]
    "data: \x7boops" (Or.inl ⟨rfl, rfl⟩)

/-- C6: the reset callback returns the state to the exact Idle defaults from
any prior state, hence it is idempotent. -/
theorem reset_yields_idle_defaults (s : StreamState) :
    resetConsumer s = idleState ∧ resetConsumer (resetConsumer s) = resetConsumer s :=
  ⟨rfl, rfl⟩

/-- C7: when the abort timer wins the race the call fails with the TIMEOUT
error whose message names the configured timeout, and a response with status
at least 400 fails with an error carrying the status and the structured error
payload the server provided (an empty object when the body is not JSON). -/
theorem timeout_and_http_error_reporting
    (n st : Nat) (stx : String) (body : Option Json) (h : 400 ≤ st) :
    requestModel n FetchOutcome.aborted
      = Except.error ⟨"Request timeout after " ++ toString n ++ "ms",
                      some "TIMEOUT", none, none⟩
    ∧ requestModel n (FetchOutcome.httpResponse st stx body)
      = Except.error ⟨errMsgFrom (body.getD (Json.obj [])) st stx, none,
                      some st, some (body.getD (Json.obj []))⟩ := by
  refine ⟨rfl, ?_⟩
  have hok : respOk st = false := by
    simp only [respOk, Bool.and_eq_false_iff, decide_eq_false_iff_not, not_le]
    omega
  simp [requestModel, hok]

theorem timeout_and_http_error_reporting_witness :
    400 ≤ 404
    ∧ requestModel 30000 FetchOutcome.aborted
      = Except.error ⟨"Request timeout after 30000ms", some "TIMEOUT", none, none⟩
    ∧ requestModel 30000 (FetchOutcome.httpResponse 404 "Not Found"
        (some (Json.obj [("detail", Json.str "Missing")])))
      = Except.error ⟨"Missing", none, some 404,
                      some (Json.obj [("detail", Json.str "Missing")])⟩ :=
  ⟨by omega,
   (timeout_and_http_error_reporting 30000 404 "Not Found"
      (some (Json.obj [("detail", Json.str "Missing")])) (by omega)).1,
   (timeout_and_http_error_reporting 30000 404 "Not Found"
      (some (Json.obj [("detail", Json.str "Missing")])) (by omega)).2⟩

/-- C8 counterexample: in the defaulted call response format mp3 is truthy,
yet the assembled body carries no response format field, so optional fields
are not included exactly when truthy. -/
theorem tts_truthy_mp3_omitted :
    jsTruthy (ttsDefaultedArgs (Json.str "hello")).response_format = true
    ∧ bodyGet "response_format" (mkTtsBody (ttsDefaultedArgs (Json.str "hello"))) = none :=
  ⟨rfl, rfl⟩

/-- C8 amended: the body always contains text, voice, speed and provider;
model, system prompt, instructions, prompt prefix and voice config are present
exactly when truthy; response format is present exactly when truthy and not
mp3; language code exactly when truthy and not en-US. -/
theorem tts_body_field_conditions (a : TtsArgs) :
    bodyGet "text" (mkTtsBody a) = some a.text
    ∧ bodyGet "voice" (mkTtsBody a) = some a.voice
    ∧ bodyGet "speed" (mkTtsBody a) = some a.speed
    ∧ bodyGet "provider" (mkTtsBody a) = some a.provider
    ∧ (bodyGet "model" (mkTtsBody a)).isSome = jsTruthy a.model
    ∧ (bodyGet "system_prompt" (mkTtsBody a)).isSome = jsTruthy a.system_prompt
    ∧ (bodyGet "instructions" (mkTtsBody a)).isSome = jsTruthy a.instructions
    ∧ (bodyGet "response_format" (mkTtsBody a)).isSome
        = (jsTruthy a.response_format && !(jsonIsStr a.response_format "mp3"))
    ∧ (bodyGet "prompt_prefix" (mkTtsBody a)).isSome = jsTruthy a.promptPrefix
    ∧ (bodyGet "voice_config" (mkTtsBody a)).isSome = jsTruthy a.voice_config
    ∧ (bodyGet "language_code" (mkTtsBody a)).isSome
        = (jsTruthy a.language_code && !(jsonIsStr a.language_code "en-US")) := by
  refine ⟨?_, ?_, ?_, ?_, ?_, ?_, ?_, ?_, ?_, ?_, ?_⟩
  · simp [mkTtsBody, List.append_assoc, bodyGet, bodyGet_append_of_none, bodyGet_ite_ne]
  · simp [mkTtsBody, List.append_assoc, bodyGet, bodyGet_append_of_none, bodyGet_ite_ne]
  · simp [mkTtsBody, List.append_assoc, bodyGet, bodyGet_append_of_none, bodyGet_ite_ne]
  · simp [mkTtsBody, List.append_assoc, bodyGet, bodyGet_append_of_none, bodyGet_ite_ne]
  · cases hm : jsTruthy a.model <;>
      simp [mkTtsBody, List.append_assoc, bodyGet, bodyGet_append_of_none,
            bodyGet_ite_ne, hm]
  · cases hm : jsTruthy a.system_prompt <;>
      simp [mkTtsBody, List.append_assoc, bodyGet, bodyGet_append_of_none,
            bodyGet_ite_ne, hm]
  · cases hm : jsTruthy a.instructions <;>
      simp [mkTtsBody, List.append_assoc, bodyGet, bodyGet_append_of_none,
            bodyGet_ite_ne, hm]
  · cases hm : jsTruthy a.response_format && !(jsonIsStr a.response_format "mp3") <;>
      simp [mkTtsBody, List.append_assoc, bodyGet, bodyGet_append_of_none,
            bodyGet_ite_ne, hm]
  · cases hm : jsTruthy a.promptPrefix <;>
      simp [mkTtsBody, List.append_assoc, bodyGet, bodyGet_append_of_none,
            bodyGet_ite_ne, hm]
  · cases hm : jsTruthy a.voice_config <;>
      simp [mkTtsBody, List.append_assoc, bodyGet, bodyGet_append_of_none,
            bodyGet_ite_ne, hm]
  · cases hm : jsTruthy a.language_code && !(jsonIsStr a.language_code "en-US") <;>
      simp [mkTtsBody, List.append_assoc, bodyGet, bodyGet_append_of_none,
            bodyGet_ite_ne, hm]

/-- C9: a missing, empty or all-whitespace custom text makes the call fail
with the fixed error before any request body exists; any other custom text
produces a body carrying the trimmed text. -/
theorem notebooklm_requires_custom_text (ct : Option String) :
    ((ct = none ∨ ∃ s, ct = some s ∧ ∀ c ∈ s.data, jsWhitespaceB c = true) →
       generateNotebookLMAudio ct = Except.error "Custom text is required")
    ∧ (∀ s, ct = some s → ¬(∀ c ∈ s.data, jsWhitespaceB c = true) →
       generateNotebookLMAudio ct = Except.ok [("custom_text", Json.str (jsTrim s))]) := by
  constructor
  · rintro (rfl | ⟨s, rfl, hws⟩)
    · rfl
    · have hts : jsTrim s = "" := (jsTrim_eq_empty_iff s).2 hws
      simp [generateNotebookLMAudio, hts]
  · rintro s rfl hws
    have h1 : ¬(jsTrim s = "") := fun hh => hws ((jsTrim_eq_empty_iff s).1 hh)
    have h2 : ¬(s = "") := by
      rintro rfl
      exact hws (by intro c hc; simp at hc)
    simp [generateNotebookLMAudio, h1, h2]

theorem notebooklm_requires_custom_text_witness :
    generateNotebookLMAudio (some "  ") = Except.error "Custom text is required"
    ∧ generateNotebookLMAudio (some " hi ") = Except.ok [("custom_text", Json.str "hi")] :=
  ⟨(notebooklm_requires_custom_text (some "  ")).1 (Or.inr ⟨"  ", rfl, by decide⟩),
   (notebooklm_requires_custom_text (some " hi ")).2 " hi " rfl (by decide)⟩

/-- C10: provided the files field of an event is missing, null or an array
(the shapes the claim enumerates), every reducer step keeps fileInfo an
array: a file info event installs the event's array (the empty array when the
field is missing or null), and every other event leaves fileInfo unchanged. -/
theorem fileInfo_stays_array (s : StreamState) (e : Json)
    (hs : jsonIsArr s.fileInfo = true)
    (hf : jsonGet "files" e = none ∨ jsonGet "files" e = some Json.null
          ∨ ∃ l, jsonGet "files" e = some (Json.arr l)) :
    jsonIsArr (streamStep s e).fileInfo = true
    ∧ (eventTag e = some "file_info" →
        ∀ l, jsonGet "files" e = some (Json.arr l) → (streamStep s e).fileInfo = Json.arr l)
    ∧ (eventTag e = some "file_info" →
        (jsonGet "files" e = none ∨ jsonGet "files" e = some Json.null) →
        (streamStep s e).fileInfo = Json.arr []) := by
  by_cases ht : eventTag e = some "file_info"
  · refine ⟨?_, ?_, ?_⟩
    · rcases hf with h | h | ⟨l, h⟩ <;> simp [streamStep, ht, h, jsTruthy, jsonIsArr]
    · intro _ l hl
      simp [streamStep, ht, hl, jsTruthy]
    · rintro _ (h | h) <;> simp [streamStep, ht, h, jsTruthy]
  · have hkeep : (streamStep s e).fileInfo = s.fileInfo := by
      unfold streamStep
      split_ifs <;> rfl
    exact ⟨by rw [hkeep]; exact hs,
           fun h => absurd h ht,
           fun h => absurd h ht⟩

theorem fileInfo_stays_array_witness :
    jsonIsArr (streamStep idleState fileInfoEventOne).fileInfo = true
    ∧ (streamStep idleState fileInfoEventOne).fileInfo
        = Json.arr [Json.obj [("filename", Json.str "a.pdf")]] :=
  ⟨(fileInfo_stays_array idleState fileInfoEventOne rfl
      (Or.inr (Or.inr ⟨_, rfl⟩))).1,
   (fileInfo_stays_array idleState fileInfoEventOne rfl
      (Or.inr (Or.inr ⟨_, rfl⟩))).2.1 rfl _ rfl⟩
